import Mathlib

/-!
Shallow embedding of the jsonapi crate (src/src/lib.rs) and of the code
generated by its derive macros (src/jsonapi_resource_derive/src/lib.rs):
the wire model, the relationship resolution engine, request decoding and
response assembly, with theorems checking the specification claims.
-/

namespace JsonApi

/-- Wire id: `ID` is a newtype over a string (`pub struct ID(pub String)`). -/
abbrev ID := String

/-- Wire identifier `{id, type}` (`pub struct Identifier`). -/
structure Identifier where
  id : ID
  typ : String
deriving DecidableEq, Repr

/-- The to-one / to-many relationship union (`pub enum Relationship`). -/
inductive Relationship where
  | ToOne (one : Identifier)
  | ToMany (many : List Identifier)
deriving DecidableEq, Repr

/-- Wrapper stored in a relationships mapping (`pub struct RelationshipData`). -/
structure RelationshipData where
  data : Relationship
deriving DecidableEq, Repr

/-- Model of `BTreeMap<String, RelationshipData>` as an association list.
Lookup and removal are by key; insertion keeps keys sorted as a BTreeMap does. -/
abbrev RelMap := List (String × RelationshipData)

/-- Error status enumeration (`pub enum ErrorStatus`). -/
inductive ErrorStatus where
  | BadRequest
  | Unauthorized
  | Forbidden
  | NotFound
  | Conflict
  | InternalError
deriving DecidableEq, Repr

/-- Wire error object (`pub struct Error`). -/
structure Error where
  status : ErrorStatus
  code : Option String
  title : String
  detail : Option String
deriving DecidableEq, Repr

/-- Constructor `Error::new_bad_request` from src/src/lib.rs. -/
def Error.new_bad_request (title : String) : Error :=
  { status := ErrorStatus.BadRequest, code := some "Bad Request", title := title, detail := none }

/-- Source `impl IntoRelationships for ()`: the unit relation holder encodes to `None`. -/
def unit_into_relationships : Option RelMap := none

/-- Source `impl FromRelationships for ()`: absent or empty mapping succeeds, any
non-empty mapping is a BadRequest. -/
def unit_from_relationships : Option RelMap → Except Error Unit
  | none => Except.ok ()
  | some map =>
    if map.length == 0 then Except.ok ()
    else Except.error (Error.new_bad_request "unexpected relationships for this resource type")

/-- Source `impl<I: FromID> FromRelationship for I`: decode a to-one-typed field.
The concrete `FromID` instance is passed as the `fromID` parameter. -/
def from_relationship_to_one {B : Type} (fromID : ID → Except Error B) :
    Relationship → Except Error B
  | Relationship.ToOne one => fromID one.id
  | Relationship.ToMany _ =>
    Except.error (Error.new_bad_request "invalid relationship: expected a to-one, got to-many")

/-- The loop inside `FromRelationship for Vec<I>`: decode each identifier,
stopping at the first error. -/
def decode_ids {B : Type} (fromID : ID → Except Error B) :
    List Identifier → Except Error (List B)
  | [] => Except.ok []
  | each :: rest =>
    match fromID each.id with
    | Except.error e => Except.error e
    | Except.ok v =>
      match decode_ids fromID rest with
      | Except.error e => Except.error e
      | Except.ok vs => Except.ok (v :: vs)

/-- Source `impl<I: FromID> FromRelationship for Vec<I>`: decode a to-many-typed field. -/
def from_relationship_to_many {B : Type} (fromID : ID → Except Error B) :
    Relationship → Except Error (List B)
  | Relationship.ToMany many => decode_ids fromID many
  | Relationship.ToOne _ =>
    Except.error (Error.new_bad_request "invalid relationship: expected a to-many, got to-one")

/-- Source `impl<I> IntoRelationship for I where ID: From<I>`: encode a to-one value,
with the id encoding passed as `encode`. -/
def into_relationship_to_one {B : Type} (encode : B → ID) (v : B)
    (resource_name : String) : Relationship :=
  Relationship.ToOne { id := encode v, typ := resource_name }

/-- Source `impl<I> IntoRelationship for Vec<I>`: encode a to-many value. -/
def into_relationship_to_many {B : Type} (encode : B → ID) (vs : List B)
    (resource_name : String) : Relationship :=
  Relationship.ToMany (vs.map (fun each => { id := encode each, typ := resource_name }))

/-- Source `impl FromID for String` (also `FromID for ID`): infallible. -/
def from_id_string (id : ID) : Except Error String := Except.ok id

/-- Description of one relation field of a relation-holder struct, as the
derive macro sees it (struct `RelationNames` in the derive crate), together
with the `FromRelationship` decoder the generated code would call for the
field, decoding into the value type `V`. -/
structure RelField (V : Type) where
  field_name : String
  relation_name : String
  resource_name : String
  is_option : Bool
  fromRel : Relationship → Except Error V

/-- Model of `BTreeMap::remove(key)`: the removed value (if any) and the remaining map. -/
def removeKey (k : String) : RelMap → Option RelationshipData × RelMap
  | [] => (none, [])
  | (k', v) :: rest =>
    if k' == k then (some v, rest)
    else
      let r := removeKey k rest
      (r.1, (k', v) :: r.2)

/-- One `var_statement` of the generated `from_relationships` body: remove the
relation key from the mapping; if absent, an optional field becomes `none` and
a mandatory field is a BadRequest; if present, decode via `FromRelationship`,
propagating its error. The decoded field value is `some v` when present. -/
def decodeField {V : Type} (f : RelField V) (rels : RelMap) :
    Except Error (Option V × RelMap) :=
  match removeKey f.relation_name rels with
  | (some t, rest) =>
    match f.fromRel t.data with
    | Except.error e => Except.error e
    | Except.ok v => Except.ok (some v, rest)
  | (none, rest) =>
    if f.is_option then Except.ok (none, rest)
    else Except.error
      (Error.new_bad_request ("missing mandatory relationship \x27" ++ f.relation_name ++ "\x27"))

/-- The sequence of `var_statements`: fields are processed in declaration
order, threading the (consumed) mapping; the first error aborts the decode.
The result pairs each field name with its decoded value. -/
def decodeFields {V : Type} : List (RelField V) → RelMap →
    Except Error (List (String × Option V) × RelMap)
  | [], rels => Except.ok ([], rels)
  | f :: fs, rels =>
    match decodeField f rels with
    | Except.error e => Except.error e
    | Except.ok (v, rels') =>
      match decodeFields fs rels' with
      | Except.error e => Except.error e
      | Except.ok (vs, rels'') => Except.ok ((f.field_name, v) :: vs, rels'')

/-- The `all_options` flag computed while generating `var_statements`. -/
def allOptions {V : Type} (fs : List (RelField V)) : Bool :=
  fs.all (fun f => f.is_option)

/-- The generated `FromRelationships::from_relationships` for a relation-holder
struct with fields `fs`: the `none_handler` first (an absent mapping is an
empty map when every field is optional, otherwise a BadRequest), then the
field statements. -/
def from_relationships {V : Type} (fs : List (RelField V)) :
    Option RelMap → Except Error (List (String × Option V))
  | none =>
    if allOptions fs then
      match decodeFields fs [] with
      | Except.error e => Except.error e
      | Except.ok r => Except.ok r.1
    else Except.error (Error.new_bad_request "missing mandatory relationships object")
  | some m =>
    match decodeFields fs m with
    | Except.error e => Except.error e
    | Except.ok r => Except.ok r.1

/-- A relation field value held by an entity being encoded: `absent` models a
`None` in an `Option`-typed field (skipped by the generated encoder), and
`present mk` a value whose `IntoRelationship::into_relationship` encoding,
given the resource name, is `mk resource_name`. -/
inductive RelValue where
  | absent
  | present (mk : String → Relationship)

/-- Whether a `RelValue` is the absent value. -/
def RelValue.isAbsent : RelValue → Bool
  | RelValue.absent => true
  | RelValue.present _ => false

/-- Model of `BTreeMap::insert` on the sorted association-list model (replaces an
existing binding for the key). -/
def insertSorted (k : String) (v : RelationshipData) : RelMap → RelMap
  | [] => [(k, v)]
  | (k', v') :: rest =>
    match compare k k' with
    | Ordering.lt => (k, v) :: (k', v') :: rest
    | Ordering.eq => (k, v) :: rest
    | Ordering.gt => (k', v') :: insertSorted k v rest

/-- The statement sequence of the generated `into_relationships` body: for
each field in declaration order, insert `relation_name → into_relationship(value, resource_name)`,
skipping an optional field whose value is absent. -/
def encodeFields {V : Type} : List (RelField V × RelValue) → RelMap → RelMap
  | [], rels => rels
  | (f, v) :: rest, rels =>
    match v with
    | RelValue.absent => encodeFields rest rels
    | RelValue.present mk =>
      encodeFields rest (insertSorted f.relation_name { data := mk f.resource_name } rels)

/-- The generated `IntoRelationships::into_relationships`: build the mapping
from an empty `BTreeMap` and return `Some` of it unconditionally. -/
def into_relationships {V : Type} (fvs : List (RelField V × RelValue)) : Option RelMap :=
  some (encodeFields fvs [])

/-- A relation field of a relation-holder struct as written by the user:
its identifier, the optional `#[jsonapi(name = ...)]` attribute, and the head
identifier of its (single-segment) type path. -/
structure RelationsFieldInput where
  ident : String
  name : Option String
  tyHead : String
deriving DecidableEq, Repr

/-- The name bundle the derive macro computes per field (struct `RelationNames`). -/
structure RelationNames where
  resource_name : String
  field_name : String
  relation_name : String
  is_option : Bool
deriving DecidableEq, Repr

/-- Source `From<RelationsProps> for RelationFieldDescription`, per field: the
resource name is the `name` attribute if given, else the field name with "s"
appended; the relation name (the mapping key) is the field name itself; a
field is optional when its type head is `Option`. -/
def relationNamesOfField (f : RelationsFieldInput) : RelationNames :=
  { resource_name :=
      match f.name with
      | some n => n
      | none => f.ident ++ "s"
    field_name := f.ident
    relation_name := f.ident
    is_option := f.tyHead == "Option" }

/-- Package the computed names with a decoder into a `RelField`, the way the
generated code uses `relation_name` as lookup key and `resource_name` as the
type recorded in encoded identifiers. -/
def relFieldOfNames {V : Type} (names : RelationNames)
    (dec : Relationship → Except Error V) : RelField V :=
  { field_name := names.field_name
    relation_name := names.relation_name
    resource_name := names.resource_name
    is_option := names.is_option
    fromRel := dec }

/-- Incoming resource body (`pub struct ResourceRequest<D>`). -/
structure ResourceRequest (A : Type) where
  id : Option ID
  typ : String
  attributes : A
  relationships : Option RelMap

/-- Incoming request envelope (`pub struct Request<D>`). -/
structure Request (A : Type) where
  data : ResourceRequest A

/-- The entity built by a generated `FromRequest::from_request`: the decoded
id (present exactly when the shape declares an `id` field), the decoded
relations value and the pass-through attributes. -/
structure DecodedEntity (B R A : Type) where
  id : Option B
  relations : R
  attributes : A
deriving DecidableEq, Repr

/-- The generated `FromRequest::from_request` for a shape with type name
`type_name`: first the `id_let_statement` (require an id when the shape has
an `id` field, forbid one when it does not), then the
`relations_let_statement` (delegating to `FromRelationships`), then the
struct construction where `FromID::from_id` runs. `fromID` and `fromRels`
stand for the shape-specific instances the generated code calls. -/
def from_request {A B R : Type} (shapeHasId : Bool) (type_name : String)
    (fromID : ID → Except Error B) (fromRels : Option RelMap → Except Error R)
    (req : Request A) : Except Error (DecodedEntity B R A) :=
  let idStep : Except Error (Option ID) :=
    if shapeHasId then
      match req.data.id with
      | none => Except.error (Error.new_bad_request
          ("missing required id field in request for resource " ++ type_name))
      | some i => Except.ok (some i)
    else
      match req.data.id with
      | some _ => Except.error (Error.new_bad_request
          ("\x27id\x27 field not allowed in request for resource " ++ type_name))
      | none => Except.ok none
  match idStep with
  | Except.error e => Except.error e
  | Except.ok idOpt =>
    match fromRels req.data.relationships with
    | Except.error e => Except.error e
    | Except.ok rels =>
      match idOpt with
      | none => Except.ok { id := none, relations := rels, attributes := req.data.attributes }
      | some i =>
        match fromID i with
        | Except.error e => Except.error e
        | Except.ok v =>
          Except.ok { id := some v, relations := rels, attributes := req.data.attributes }

/-- The generated `Responder::attributes`: `self.attributes.clone()`, an
identity pass-through of the attributes field. -/
def responder_attributes {B R A : Type} (e : DecodedEntity B R A) : A :=
  e.attributes

/-- Outgoing resource (`pub struct ResourceResponse<D>`). -/
structure ResourceResponse (D : Type) where
  id : Identifier
  attributes : D
  relationships : Option RelMap

/-- Top-level document payload (`pub enum ResponseType<D>`). -/
inductive ResponseType (D : Type) where
  | Ok (data : List (ResourceResponse D))
  | Error (errors : List JsonApi.Error)

/-- Response envelope (`pub struct Response<P, I>`). -/
structure Response (P I : Type) where
  primary : ResponseType P
  included : Option (List (ResourceResponse I))

/-- Source `Response::include`: convert one included resource via its `IntoResponse`
(passed as `into_response`) and push it onto the `included` vector, creating
the vector when absent. -/
def Response.include {P I Ex : Type} (self : Response P I)
    (into_response : Ex → ResourceResponse I) (resource : Ex) : Response P I :=
  match self.included with
  | none => { self with included := some [into_response resource] }
  | some l => { self with included := some (l ++ [into_response resource]) }

/-- Source `Response::include_many`: convert and append many included resources. -/
def Response.include_many {P I Ex : Type} (self : Response P I)
    (into_response : Ex → ResourceResponse I) (resources : List Ex) : Response P I :=
  match self.included with
  | none => { self with included := some (resources.map into_response) }
  | some l => { self with included := some (l ++ resources.map into_response) }

/-- Source `impl<R: IntoResponse, I> From<R> for Response<R::Attributes, I>`: one
primary entity, no included resources. -/
def Response.from_resource {P I R0 : Type} (into_response : R0 → ResourceResponse P)
    (r : R0) : Response P I :=
  { primary := ResponseType.Ok [into_response r], included := none }

/-- Claim C4: decoding a to-one-typed field from a ToMany value, and a
to-many-typed field from a ToOne value, each fail with a BadRequest error
whose title identifies the expected cardinality. -/
theorem cardinality_mismatch_is_bad_request {B : Type} (fromID : ID → Except Error B) :
    (∀ many, from_relationship_to_one fromID (Relationship.ToMany many) =
      Except.error (Error.new_bad_request "invalid relationship: expected a to-one, got to-many")) ∧
    (∀ one, from_relationship_to_many fromID (Relationship.ToOne one) =
      Except.error (Error.new_bad_request "invalid relationship: expected a to-many, got to-one")) ∧
    (Error.new_bad_request "invalid relationship: expected a to-one, got to-many").status
        = ErrorStatus.BadRequest ∧
    (Error.new_bad_request "invalid relationship: expected a to-many, got to-one").status
        = ErrorStatus.BadRequest := by
  refine ⟨fun many => rfl, fun one => rfl, rfl, rfl⟩

/-- Claim C5: the unit relation holder decodes successfully exactly on an
absent or empty mapping, fails BadRequest "unexpected relationships for this
resource type" on any non-empty mapping, and encodes to no relationships
entry. The three decode cases are exhaustive over `Option RelMap`. -/
theorem unit_holder_behavior :
    unit_from_relationships none = Except.ok () ∧
    unit_from_relationships (some []) = Except.ok () ∧
    (∀ p rest, unit_from_relationships (some (p :: rest)) =
      Except.error (Error.new_bad_request "unexpected relationships for this resource type")) ∧
    unit_into_relationships = none := by
  refine ⟨rfl, rfl, fun p rest => rfl, rfl⟩

/-- Decoding with an empty mapping when every field is optional: every field
becomes absent and the decode succeeds. -/
theorem decodeFields_nil_of_all_option {V : Type} (fs : List (RelField V))
    (h : ∀ f ∈ fs, f.is_option = true) :
    decodeFields fs [] =
      Except.ok (fs.map (fun f => (f.field_name, (none : Option V))), []) := by
  induction fs with
  | nil => rfl
  | cons f fs ih =>
    have hf : f.is_option = true := h f (by simp)
    have ht := ih (fun g hg => h g (by simp [hg]))
    simp [decodeFields, decodeField, removeKey, hf, ht]

/-- The encoder skips every absent field, leaving the map untouched. -/
theorem encodeFields_all_absent {V : Type} (fvs : List (RelField V × RelValue))
    (h : fvs.all (fun fv => fv.2.isAbsent) = true) (rels : RelMap) :
    encodeFields fvs rels = rels := by
  induction fvs with
  | nil => rfl
  | cons fv rest ih =>
    simp only [List.all_cons, Bool.and_eq_true] at h
    obtain ⟨h1, h2⟩ := h
    obtain ⟨f, v⟩ := fv
    cases v with
    | absent => simpa [encodeFields] using ih h2
    | present mk => simp [RelValue.isAbsent] at h1

/-- Claim C2: with the incoming relationships mapping entirely absent,
a holder whose fields are all optional decodes exactly as with an empty
mapping supplied (every field absent, no error), and a holder with at least
one mandatory field fails BadRequest "missing mandatory relationships object". -/
theorem absent_mapping_decode {V : Type} (fs : List (RelField V)) :
    ((∀ f ∈ fs, f.is_option = true) →
      from_relationships fs none = from_relationships fs (some []) ∧
      from_relationships fs none =
        Except.ok (fs.map (fun f => (f.field_name, (none : Option V))))) ∧
    ((∃ f ∈ fs, f.is_option = false) →
      from_relationships fs none =
        Except.error (Error.new_bad_request "missing mandatory relationships object")) := by
  constructor
  · intro h
    have hall : allOptions fs = true := by
      simp only [allOptions, List.all_eq_true]
      exact fun f hf => h f hf
    have hdec := decodeFields_nil_of_all_option fs h
    constructor
    · simp [from_relationships, hall, hdec]
    · simp [from_relationships, hall, hdec]
  · intro h
    obtain ⟨f, hf, hopt⟩ := h
    have hall : allOptions fs = false := by
      simp only [allOptions, List.all_eq_false]
      exact ⟨f, hf, by simp [hopt]⟩
    simp [from_relationships, hall]

/-- A concrete optional relation field named `simple`, decoding to-one ids
as strings; used to instantiate theorems with hypotheses. -/
def optSimpleField : RelField String :=
  relFieldOfNames (relationNamesOfField { ident := "simple", name := none, tyHead := "Option" })
    (from_relationship_to_one from_id_string)

/-- A concrete mandatory relation field named `simple` (type head not
`Option`), decoding to-one ids as strings. -/
def mandSimpleField : RelField String :=
  relFieldOfNames (relationNamesOfField { ident := "simple", name := none, tyHead := "Uuid" })
    (from_relationship_to_one from_id_string)

/-- Witness for C2 at a concrete holder: one optional field `simple` decodes
an absent mapping to an absent field, and one mandatory field `simple` makes
an absent mapping a BadRequest. -/
theorem absent_mapping_decode_witness :
    from_relationships [optSimpleField] none =
      Except.ok [("simple", (none : Option String))] ∧
    from_relationships [mandSimpleField] none =
      Except.error (Error.new_bad_request "missing mandatory relationships object") :=
  ⟨((absent_mapping_decode [optSimpleField]).1 (by simp [optSimpleField,
      relFieldOfNames, relationNamesOfField])).2,
    (absent_mapping_decode [mandSimpleField]).2
      ⟨mandSimpleField, by simp, by simp [mandSimpleField, relFieldOfNames, relationNamesOfField]⟩⟩

/-- Claim C10: the generated encoder of a (non-unit) relation holder always
returns a present mapping, and when every field value is absent it returns
`Some` of the empty mapping rather than `None`; only the unit relation holder
encodes to `None`. -/
theorem encoder_always_present {V : Type} (fvs : List (RelField V × RelValue)) :
    (into_relationships fvs).isSome = true ∧
    into_relationships fvs ≠ none ∧
    (fvs.all (fun fv => fv.2.isAbsent) = true → into_relationships fvs = some []) ∧
    unit_into_relationships = none := by
  refine ⟨rfl, by simp [into_relationships], ?_, rfl⟩
  intro h
  simp [into_relationships, encodeFields_all_absent fvs h]

/-- Witness for C10 at a concrete holder: one optional field `simple` with an
absent value still encodes to `Some` of the empty mapping. -/
theorem encoder_always_present_witness :
    into_relationships [(optSimpleField, RelValue.absent)] = some [] :=
  (encoder_always_present [(optSimpleField, RelValue.absent)]).2.2.1 rfl

/-- Counterexample for C7: for the field `simple` with no name attribute, the
pluralized field name is "simples", but the wire key actually used by the
generated encoder is the bare field name "simple"; an explicit name attribute
does not change the key either (it changes the resource name); and decoding
a mapping supplied under the pluralized key "simples" fails to find the
mandatory relationship `simple`. -/
theorem relation_wire_name_counterexample :
    (relationNamesOfField { ident := "simple", name := none, tyHead := "Option" }).relation_name
        = "simple" ∧
    "simple" ≠ "simples" ∧
    into_relationships [(optSimpleField,
        RelValue.present (into_relationship_to_one (fun s : String => s) "x"))] =
      some [("simple", { data := Relationship.ToOne { id := "x", typ := "simples" } })] ∧
    (relationNamesOfField { ident := "simple", name := some "customs", tyHead := "Option" }).relation_name
        = "simple" ∧
    (relationNamesOfField { ident := "simple", name := some "customs", tyHead := "Option" }).resource_name
        = "customs" ∧
    from_relationships [mandSimpleField]
        (some [("simples", ({ data := Relationship.ToOne { id := "x", typ := "fakes" } } : RelationshipData))]) =
      Except.error (Error.new_bad_request "missing mandatory relationship \x27simple\x27") := by
  refine ⟨rfl, by decide, rfl, rfl, rfl, rfl⟩

/-- Amended claim C7: the relation wire key (used for encoding and decode
lookup) is always exactly the field name; the pluralized field name is only
the default for the relation resource name (overridable by the name
attribute), which becomes the `type` of encoded identifiers. -/
theorem relation_wire_name_amended {V : Type} (f : RelationsFieldInput)
    (dec : Relationship → Except Error V) (encode : V → ID) (v : V)
    (t : RelationshipData) :
    (relationNamesOfField f).relation_name = f.ident ∧
    (relationNamesOfField f).resource_name =
      (match f.name with
       | some n => n
       | none => f.ident ++ "s") ∧
    into_relationships [(relFieldOfNames (relationNamesOfField f) dec,
        RelValue.present (into_relationship_to_one encode v))] =
      some [(f.ident, { data := Relationship.ToOne { id := encode v, typ := (relationNamesOfField f).resource_name } })] ∧
    removeKey (relationNamesOfField f).relation_name [(f.ident, t)] = (some t, []) := by
  refine ⟨rfl, rfl, rfl, ?_⟩
  simp [removeKey, relationNamesOfField]

/-- Unfolding equation: a failing field decode fails the list decode. -/
theorem decodeFields_cons_err {V : Type} (f : RelField V) (fs : List (RelField V))
    (m : RelMap) (e : Error) (h : decodeField f m = Except.error e) :
    decodeFields (f :: fs) m = Except.error e := by
  simp [decodeFields, h]

/-- Unfolding equation: a successful field decode binds the field and
continues with the remaining mapping. -/
theorem decodeFields_cons_ok {V : Type} (f : RelField V) (fs : List (RelField V))
    (m : RelMap) (v : Option V) (m1 : RelMap) (h : decodeField f m = Except.ok (v, m1)) :
    decodeFields (f :: fs) m =
      (match decodeFields fs m1 with
      | Except.error e => Except.error e
      | Except.ok (vs, m2) => Except.ok ((f.field_name, v) :: vs, m2)) := by
  simp only [decodeFields, h]

/-- Sequencing: decoding a concatenation of field lists threads the mapping
through the first list, then the second, stopping at the first error. -/
theorem decodeFields_append {V : Type} (xs ys : List (RelField V)) (m : RelMap) :
    decodeFields (xs ++ ys) m =
      (match decodeFields xs m with
      | Except.error e => Except.error e
      | Except.ok (vs, m') =>
        match decodeFields ys m' with
        | Except.error e => Except.error e
        | Except.ok (vs', m'') => Except.ok (vs ++ vs', m'')) := by
  induction xs generalizing m with
  | nil =>
    simp only [List.nil_append, decodeFields]
    cases h : decodeFields ys m with
    | error e => rfl
    | ok q => rfl
  | cons f fs ih =>
    rcases hf : decodeField f m with e | ⟨v, m1⟩
    · rw [List.cons_append, decodeFields_cons_err f (fs ++ ys) m e hf,
        decodeFields_cons_err f fs m e hf]
    · rw [List.cons_append, decodeFields_cons_ok f (fs ++ ys) m v m1 hf,
        decodeFields_cons_ok f fs m v m1 hf, ih m1]
      cases h1 : decodeFields fs m1 with
      | error e => rfl
      | ok q =>
        obtain ⟨vs, m2⟩ := q
        cases h2 : decodeFields ys m2 with
        | error e => simp [h2]
        | ok r => simp [h2]

/-- Claim C1: decoding with a present relationships mapping, once the fields
before `f` have decoded successfully (leaving mapping state `m'`): if `f` is
mandatory and its key is absent the whole decode fails BadRequest
"missing mandatory relationship \x27name\x27"; if `f` is optional and its key
is absent the field becomes none and decoding proceeds over the remaining
fields; if the key is present the value is decoded via `FromRelationship`,
an error there failing the whole decode and a success binding the field. -/
theorem relationship_fieldwise_decode {V : Type} (pre post : List (RelField V))
    (f : RelField V) (m m' : RelMap) (vs : List (String × Option V))
    (hpre : decodeFields pre m = Except.ok (vs, m')) :
    (f.is_option = false → ∀ rest, removeKey f.relation_name m' = (none, rest) →
      from_relationships (pre ++ f :: post) (some m) =
        Except.error (Error.new_bad_request
          ("missing mandatory relationship \x27" ++ f.relation_name ++ "\x27"))) ∧
    (f.is_option = true → ∀ rest, removeKey f.relation_name m' = (none, rest) →
      ∀ vs2 m2, decodeFields post rest = Except.ok (vs2, m2) →
        from_relationships (pre ++ f :: post) (some m) =
          Except.ok (vs ++ (f.field_name, none) :: vs2)) ∧
    (∀ t rest, removeKey f.relation_name m' = (some t, rest) →
      (∀ e, f.fromRel t.data = Except.error e →
        from_relationships (pre ++ f :: post) (some m) = Except.error e) ∧
      (∀ v, f.fromRel t.data = Except.ok v →
        ∀ vs2 m2, decodeFields post rest = Except.ok (vs2, m2) →
          from_relationships (pre ++ f :: post) (some m) =
            Except.ok (vs ++ (f.field_name, some v) :: vs2))) := by
  have hfr : ∀ r, decodeFields (f :: post) m' = r →
      from_relationships (pre ++ f :: post) (some m) =
        (match r with
        | Except.error e => Except.error e
        | Except.ok p => Except.ok (vs ++ p.1)) := by
    intro r hr
    simp only [from_relationships, decodeFields_append, hpre]
    rw [hr]
    cases r with
    | error e => rfl
    | ok p => rfl
  refine ⟨?_, ?_, ?_⟩
  · intro hopt rest hrm
    exact hfr (Except.error (Error.new_bad_request
        ("missing mandatory relationship \x27" ++ f.relation_name ++ "\x27")))
      (by simp [decodeFields, decodeField, hrm, hopt])
  · intro hopt rest hrm vs2 m2 hpost
    exact hfr (Except.ok ((f.field_name, none) :: vs2, m2))
      (by simp [decodeFields, decodeField, hrm, hopt, hpost])
  · intro t rest hrm
    constructor
    · intro e he
      exact hfr (Except.error e) (by simp [decodeFields, decodeField, hrm, he])
    · intro v hv vs2 m2 hpost
      exact hfr (Except.ok ((f.field_name, some v) :: vs2, m2))
        (by simp [decodeFields, decodeField, hrm, hv, hpost])

/-- Witness for C1 at a concrete holder: one mandatory field `simple` and an
empty (present) mapping fail with the named BadRequest. -/
theorem relationship_fieldwise_decode_witness :
    from_relationships [mandSimpleField] (some []) =
      Except.error (Error.new_bad_request "missing mandatory relationship \x27simple\x27") :=
  (relationship_fieldwise_decode [] [] mandSimpleField [] [] [] rfl).1 rfl [] rfl

/-- Removal of a key bound by no entry leaves the mapping unchanged. -/
theorem removeKey_of_forall_ne (k : String) (l : RelMap) (h : ∀ p ∈ l, p.1 ≠ k) :
    removeKey k l = (none, l) := by
  induction l with
  | nil => rfl
  | cons p rest ih =>
    obtain ⟨k', v⟩ := p
    have hp : k' ≠ k := h (k', v) (by simp)
    have hne : (k' == k) = false := by simp [hp]
    simp [removeKey, hne, ih (fun q hq => h q (by simp [hq]))]

/-- Removal distributes over appending entries whose keys differ from the
removed key: such entries are never touched. -/
theorem removeKey_append (k : String) (m extras : RelMap)
    (h : ∀ p ∈ extras, p.1 ≠ k) :
    removeKey k (m ++ extras) = ((removeKey k m).1, (removeKey k m).2 ++ extras) := by
  induction m with
  | nil => simp [removeKey, removeKey_of_forall_ne k extras h]
  | cons p rest ih =>
    obtain ⟨k', v⟩ := p
    cases hk : (k' == k) with
    | true => simp [removeKey, hk]
    | false => simp [removeKey, hk, ih]

/-- A single field decode is unaffected by appended entries under undeclared
keys, which are carried through in the remaining mapping. -/
theorem decodeField_append_extras {V : Type} (f : RelField V) (m extras : RelMap)
    (h : ∀ p ∈ extras, p.1 ≠ f.relation_name) :
    decodeField f (m ++ extras) =
      (match decodeField f m with
      | Except.error e => Except.error e
      | Except.ok (v, rest) => Except.ok (v, rest ++ extras)) := by
  unfold decodeField
  rw [removeKey_append f.relation_name m extras h]
  cases hr : removeKey f.relation_name m with
  | mk o rest =>
    cases o with
    | some t =>
      cases hd : f.fromRel t.data with
      | error e => simp [hd]
      | ok v => simp [hd]
    | none =>
      cases hopt : f.is_option with
      | true => simp [hopt]
      | false => simp [hopt]

/-- The whole field-list decode is unaffected by appended entries under
undeclared keys. -/
theorem decodeFields_extras {V : Type} (fs : List (RelField V)) (m extras : RelMap)
    (h : ∀ f ∈ fs, ∀ p ∈ extras, p.1 ≠ f.relation_name) :
    decodeFields fs (m ++ extras) =
      (match decodeFields fs m with
      | Except.error e => Except.error e
      | Except.ok (vs, m') => Except.ok (vs, m' ++ extras)) := by
  induction fs generalizing m with
  | nil => rfl
  | cons f fs ih =>
    have hf := h f (by simp)
    have hrest : ∀ g ∈ fs, ∀ p ∈ extras, p.1 ≠ g.relation_name :=
      fun g hg => h g (by simp [hg])
    rcases hd : decodeField f m with e | ⟨v, m1⟩
    · have hd2 : decodeField f (m ++ extras) = Except.error e := by
        rw [decodeField_append_extras f m extras hf, hd]
      rw [decodeFields_cons_err f fs (m ++ extras) e hd2,
        decodeFields_cons_err f fs m e hd]
    · have hd2 : decodeField f (m ++ extras) = Except.ok (v, m1 ++ extras) := by
        rw [decodeField_append_extras f m extras hf, hd]
      rw [decodeFields_cons_ok f fs (m ++ extras) v (m1 ++ extras) hd2,
        decodeFields_cons_ok f fs m v m1 hd, ih m1 hrest]
      cases h1 : decodeFields fs m1 with
      | error e => rfl
      | ok q =>
        obtain ⟨vs, m2⟩ := q
        simp

/-- Claim C6: a non-unit relation holder does not reject undeclared keys.
If the declared fields decode successfully from a mapping, appending extra
entries whose keys are declared by no field leaves the decode result
unchanged — the undeclared entries pass through silently. -/
theorem undeclared_keys_ignored {V : Type} (fs : List (RelField V)) (m extras : RelMap)
    (hdisj : extras.all (fun p => fs.all (fun f => f.relation_name != p.1)) = true)
    (vs : List (String × Option V))
    (h : from_relationships fs (some m) = Except.ok vs) :
    from_relationships fs (some (m ++ extras)) = Except.ok vs := by
  have hd : ∀ f ∈ fs, ∀ p ∈ extras, p.1 ≠ f.relation_name := by
    simp only [List.all_eq_true, bne_iff_ne] at hdisj
    exact fun f hf p hp => (hdisj p hp f hf).symm
  simp only [from_relationships] at h ⊢
  rw [decodeFields_extras fs m extras hd]
  cases hh : decodeFields fs m with
  | error e =>
    rw [hh] at h
    simp at h
  | ok p =>
    rw [hh] at h
    simp at h
    simp [h]

/-- Witness for C6 at a concrete holder: one optional field `simple`, a
mapping consisting only of an undeclared key `foo`, decodes successfully with
`simple` absent. -/
theorem undeclared_keys_ignored_witness :
    from_relationships [optSimpleField]
        (some [("foo", ({ data := Relationship.ToOne { id := "test", typ := "fakes" } } : RelationshipData))]) =
      Except.ok [("simple", (none : Option String))] :=
  undeclared_keys_ignored [optSimpleField] []
    [("foo", { data := Relationship.ToOne { id := "test", typ := "fakes" } })] rfl
    [("simple", none)] rfl

/-- Claim C3: for a shape with an `id` field, an absent wire id is a
BadRequest whose title starts "missing required id field", and a present id
is decoded via `FromID` (after the relationships step), its error failing the
decode and its success becoming the entity id; for a shape without an `id`
field, a present wire id is a BadRequest titled with
"\x27id\x27 field not allowed", and an absent one decodes. -/
theorem id_field_enforcement {A B R : Type} (type_name : String)
    (fromID : ID → Except Error B) (fromRels : Option RelMap → Except Error R)
    (req : Request A) :
    (req.data.id = none →
      from_request true type_name fromID fromRels req =
        Except.error (Error.new_bad_request
          ("missing required id field in request for resource " ++ type_name)) ∧
      ("missing required id field in request for resource " ++ type_name) =
        "missing required id field" ++ (" in request for resource " ++ type_name)) ∧
    (∀ i, req.data.id = some i → ∀ r, fromRels req.data.relationships = Except.ok r →
      ((∀ e, fromID i = Except.error e →
        from_request true type_name fromID fromRels req = Except.error e) ∧
      (∀ v, fromID i = Except.ok v →
        from_request true type_name fromID fromRels req =
          Except.ok { id := some v, relations := r, attributes := req.data.attributes }))) ∧
    (∀ i, req.data.id = some i →
      from_request false type_name fromID fromRels req =
        Except.error (Error.new_bad_request
          ("\x27id\x27 field not allowed in request for resource " ++ type_name))) ∧
    (req.data.id = none → ∀ r, fromRels req.data.relationships = Except.ok r →
      from_request false type_name fromID fromRels req =
        Except.ok { id := none, relations := r, attributes := req.data.attributes }) := by
  refine ⟨?_, ?_, ?_, ?_⟩
  · intro h
    refine ⟨by simp [from_request, h], ?_⟩
    rw [← String.append_assoc]
    rfl
  · intro i hi r hr
    constructor
    · intro e he
      simp [from_request, hi, hr, he]
    · intro v hv
      simp [from_request, hi, hr, hv]
  · intro i hi
    simp [from_request, hi]
  · intro h r hr
    simp [from_request, h, hr]

/-- A concrete incoming request carrying no id. -/
def reqNoId : Request (Option Unit) :=
  { data := { id := none, typ := "simples", attributes := none, relationships := none } }

/-- Witness for C3 at a concrete request with no id for a shape with an `id`
field: the decode fails with the missing-id BadRequest. -/
theorem id_field_enforcement_witness :
    from_request true "simples" from_id_string unit_from_relationships reqNoId =
      Except.error (Error.new_bad_request
        ("missing required id field in request for resource " ++ "simples")) :=
  ((id_field_enforcement "simples" from_id_string unit_from_relationships reqNoId).1 rfl).1

/-- Claim C8: whenever the generated decode succeeds, the entity attributes
as re-encoded by the generated responder equal the attributes of the original
request — a pure pass-through in both directions. -/
theorem attributes_roundtrip {A B R : Type} (shapeHasId : Bool) (type_name : String)
    (fromID : ID → Except Error B) (fromRels : Option RelMap → Except Error R)
    (req : Request A) (ent : DecodedEntity B R A)
    (h : from_request shapeHasId type_name fromID fromRels req = Except.ok ent) :
    responder_attributes ent = req.data.attributes := by
  simp only [from_request] at h
  repeat' split at h
  all_goals first
    | (injection h with h2; subst h2; rfl)
    | simp at h

/-- A concrete incoming request carrying an id and numeric attributes. -/
def reqWithId : Request Nat :=
  { data := { id := some "x", typ := "ts", attributes := 42, relationships := none } }

/-- Witness for C8 at a concrete successful decode. -/
theorem attributes_roundtrip_witness :
    responder_attributes
        ({ id := some "x", relations := (), attributes := 42 } : DecodedEntity String Unit Nat) =
      reqWithId.data.attributes :=
  attributes_roundtrip true "ts" from_id_string unit_from_relationships reqWithId
    { id := some "x", relations := (), attributes := 42 } rfl

/-- Claim C9: building a response from one primary entity and then calling
include twice yields a document whose data array is exactly the primary
encoding of the primary entity and whose included array lists the two inclusions in call
order; in general include and include_many append converted resources
preserving call order and leave the primary data unchanged. -/
theorem include_ordering {P I R0 Ex : Type} (convP : R0 → ResourceResponse P)
    (convI : Ex → ResourceResponse I) (p : R0) (a b : Ex) :
    ((Response.from_resource convP p).include convI a).include convI b =
      ({ primary := ResponseType.Ok [convP p], included := some [convI a, convI b] } :
        Response P I) ∧
    (∀ (resp : Response P I) (l : List (ResourceResponse I)) (x : Ex),
      resp.included = some l →
      ((resp.include convI x).primary = resp.primary ∧
        (resp.include convI x).included = some (l ++ [convI x]))) ∧
    (∀ (resp : Response P I) (l : List (ResourceResponse I)) (xs : List Ex),
      resp.included = some l →
      ((resp.include_many convI xs).primary = resp.primary ∧
        (resp.include_many convI xs).included = some (l ++ xs.map convI))) ∧
    (∀ (resp : Response P I) (x : Ex), resp.included = none →
      (resp.include convI x).included = some [convI x]) := by
  refine ⟨rfl, ?_, ?_, ?_⟩
  · intro resp l x h
    obtain ⟨prim, inc⟩ := resp
    cases inc with
    | none => simp at h
    | some l2 =>
      have hl : l2 = l := by simpa using h
      subst hl
      exact ⟨rfl, rfl⟩
  · intro resp l xs h
    obtain ⟨prim, inc⟩ := resp
    cases inc with
    | none => simp at h
    | some l2 =>
      have hl : l2 = l := by simpa using h
      subst hl
      exact ⟨rfl, rfl⟩
  · intro resp x h
    obtain ⟨prim, inc⟩ := resp
    cases inc with
    | none => rfl
    | some l2 => simp at h

/-- A fixed included-resource conversion used to instantiate witnesses. -/
def constIncluded : Unit → ResourceResponse (Option Unit) :=
  fun _ => { id := { id := "1", typ := "ts" }, attributes := none, relationships := none }

/-- Witness for C9 at a concrete response whose included vector is present:
include appends at the end. -/
theorem include_ordering_witness :
    (({ primary := ResponseType.Ok [], included := some [] } :
        Response (Option Unit) (Option Unit)).include constIncluded ()).included =
      some ([] ++ [constIncluded ()]) :=
  ((include_ordering constIncluded constIncluded () () ()).2.1
    { primary := ResponseType.Ok [], included := some [] } [] () rfl).2

end JsonApi
